import Mathlib

/-!
Verification development for the UTCP NETCONF LLM client
(`llm_utcp_client.py`): a shallow embedding of the two-phase
orchestrator `handle_user_query`, the two-tier tool-JSON extraction
`extract_tool_json` (a fenced-block regex and a greedy brace-span
fallback), `chat_complete`, and the lazily initialised shared UTCP
client, together with theorems about the documented behaviour.

Python JSON values are embedded as the inductive `Json`; `json.loads`
and `json.dumps(..., indent=2)` are embedded as executable functions
over character lists.  Network effects (the OpenAI completion calls,
tool discovery and tool execution) are abstracted as an `Env` record of
fallible functions, and the orchestrator additionally produces the list
of effect events it performed, so that call counts are observable.
-/

set_option maxRecDepth 8192

instance {ε α : Type} [DecidableEq ε] [DecidableEq α] : DecidableEq (Except ε α) := fun x y =>
  match x, y with
  | .error a, .error b =>
      if h : a = b then .isTrue (by rw [h]) else .isFalse (by simp [h])
  | .ok a, .ok b =>
      if h : a = b then .isTrue (by rw [h]) else .isFalse (by simp [h])
  | .error _, .ok _ => .isFalse (by simp)
  | .ok _, .error _ => .isFalse (by simp)

/-- A Python JSON value, as produced by `json.loads`.  Numbers keep the
integer/float distinction of Python: `num` is an `int`, `fnum` is a
float represented exactly as mantissa × 10^exp (the source never
computes with floats, it only re-serialises them).  `nan`, `inf`,
`ninf` model the non-standard constants `NaN`, `Infinity`,
`-Infinity` that Python's `json.loads` accepts by default. -/
inductive Json where
  | null
  | bool (b : Bool)
  | num (n : Int)
  | fnum (mant : Int) (exp10 : Int)
  | nan
  | inf
  | ninf
  | str (s : String)
  | arr (elems : List Json)
  | obj (members : List (String × Json))
deriving Repr

mutual

def Json.beq : Json → Json → Bool
  | .null, .null => true
  | .bool a, .bool b => a == b
  | .num a, .num b => a == b
  | .fnum a b, .fnum c d => a == c && b == d
  | .nan, .nan => true
  | .inf, .inf => true
  | .ninf, .ninf => true
  | .str a, .str b => a == b
  | .arr a, .arr b => Json.beqList a b
  | .obj a, .obj b => Json.beqMembers a b
  | _, _ => false

def Json.beqList : List Json → List Json → Bool
  | [], [] => true
  | a :: as, b :: bs => Json.beq a b && Json.beqList as bs
  | _, _ => false

def Json.beqMembers : List (String × Json) → List (String × Json) → Bool
  | [], [] => true
  | (k, v) :: as, (k2, v2) :: bs => k == k2 && Json.beq v v2 && Json.beqMembers as bs
  | _, _ => false

end

mutual

theorem Json.beq_iff : ∀ a b : Json, Json.beq a b = true ↔ a = b
  | .null, b => by cases b <;> simp [Json.beq]
  | .bool x, b => by cases b <;> simp [Json.beq]
  | .num x, b => by cases b <;> simp [Json.beq]
  | .fnum x y, b => by cases b <;> simp [Json.beq, and_assoc]
  | .nan, b => by cases b <;> simp [Json.beq]
  | .inf, b => by cases b <;> simp [Json.beq]
  | .ninf, b => by cases b <;> simp [Json.beq]
  | .str x, b => by cases b <;> simp [Json.beq]
  | .arr xs, b => by
      cases b <;> simp [Json.beq]
      exact Json.beqList_iff xs _
  | .obj ms, b => by
      cases b <;> simp [Json.beq]
      exact Json.beqMembers_iff ms _

theorem Json.beqList_iff : ∀ a b : List Json, Json.beqList a b = true ↔ a = b
  | [], b => by cases b <;> simp [Json.beqList]
  | x :: xs, b => by
      cases b <;> simp [Json.beqList]
      rw [Json.beq_iff, Json.beqList_iff]

theorem Json.beqMembers_iff :
    ∀ a b : List (String × Json), Json.beqMembers a b = true ↔ a = b
  | [], b => by cases b <;> simp [Json.beqMembers]
  | (k, v) :: xs, b => by
      cases b with
      | nil => simp [Json.beqMembers]
      | cons hd tl =>
          obtain ⟨k2, v2⟩ := hd
          simp [Json.beqMembers, and_assoc]
          rw [Json.beq_iff, Json.beqMembers_iff]
          tauto

end

instance : DecidableEq Json := fun a b =>
  decidable_of_iff (Json.beq a b = true) (Json.beq_iff a b)

/-! ### Character classes and whitespace

`isJsonWs` is the whitespace class of Python's `json` module
(`WHITESPACE = [ \t\n\r]*`); `isPySpace` is the class matched by the
regex escape `\s` used in the two extraction patterns (ASCII range). -/

def isJsonWs (c : Char) : Bool :=
  c = ' ' || c = '\t' || c = '\n' || c = '\r'

def isPySpace (c : Char) : Bool :=
  c = ' ' || c = '\t' || c = '\n' || c = '\r' || c = '\x0b' || c = '\x0c'

def skipJsonWs (cs : List Char) : List Char := cs.dropWhile isJsonWs

def skipPySpace (cs : List Char) : List Char := cs.dropWhile isPySpace

def isDigitCh (c : Char) : Bool := '0' ≤ c && c ≤ '9'

def hexVal (c : Char) : Option Nat :=
  if '0' ≤ c && c ≤ '9' then some (c.toNat - 48)
  else if 'a' ≤ c && c ≤ 'f' then some (c.toNat - 87)
  else if 'A' ≤ c && c ≤ 'F' then some (c.toNat - 55)
  else none

def digitsToNat (ds : List Char) : Nat :=
  ds.foldl (fun acc c => acc * 10 + (c.toNat - 48)) 0

/-! ### `json.loads`

A fuel-indexed recursive-descent parser following CPython's pure-Python
scanner: strict strings (raw control characters rejected, standard
escapes, `\uXXXX` with surrogate-pair combination), objects with string
keys, arrays, the literals `null`/`true`/`false` and the default-enabled
constants `NaN`/`Infinity`/`-Infinity`, and numbers per
`NUMBER_RE = (-?(?:0|[1-9]\d*))(\.\d+)?([eE][-+]?\d+)?`. -/

/-- Parse the body of a JSON string (the opening quote already
consumed); returns the decoded characters and the rest after the
closing quote.  A lone `\uXXXX` surrogate becomes `Char.ofNat`'s
fallback, a divergence from Python that no input in this development
exercises. -/
def parseJStr (fuel : Nat) (cs : List Char) : Option (List Char × List Char) :=
  match fuel with
  | 0 => none
  | fuel + 1 =>
    match cs with
    | [] => none
    | c :: rest =>
      if c = '\x22' then some ([], rest)
      else if c = '\\' then
        match rest with
        | [] => none
        | e :: rest2 =>
          if e = '\x22' then (parseJStr fuel rest2).map (fun p => ('\x22' :: p.1, p.2))
          else if e = '\\' then (parseJStr fuel rest2).map (fun p => ('\\' :: p.1, p.2))
          else if e = '/' then (parseJStr fuel rest2).map (fun p => ('/' :: p.1, p.2))
          else if e = 'b' then (parseJStr fuel rest2).map (fun p => ('\x08' :: p.1, p.2))
          else if e = 'f' then (parseJStr fuel rest2).map (fun p => ('\x0c' :: p.1, p.2))
          else if e = 'n' then (parseJStr fuel rest2).map (fun p => ('\n' :: p.1, p.2))
          else if e = 'r' then (parseJStr fuel rest2).map (fun p => ('\r' :: p.1, p.2))
          else if e = 't' then (parseJStr fuel rest2).map (fun p => ('\t' :: p.1, p.2))
          else if e = 'u' then
            match rest2 with
            | h1 :: h2 :: h3 :: h4 :: rest3 =>
              match hexVal h1, hexVal h2, hexVal h3, hexVal h4 with
              | some a, some b, some c3, some d =>
                let code := ((a * 16 + b) * 16 + c3) * 16 + d
                if 0xD800 ≤ code && code < 0xDC00 then
                  match rest3 with
                  | '\\' :: 'u' :: g1 :: g2 :: g3 :: g4 :: rest4 =>
                    match hexVal g1, hexVal g2, hexVal g3, hexVal g4 with
                    | some a2, some b2, some c2, some d2 =>
                      let code2 := ((a2 * 16 + b2) * 16 + c2) * 16 + d2
                      if 0xDC00 ≤ code2 && code2 < 0xE000 then
                        let full := 0x10000 + (code - 0xD800) * 0x400 + (code2 - 0xDC00)
                        (parseJStr fuel rest4).map (fun p => (Char.ofNat full :: p.1, p.2))
                      else
                        (parseJStr fuel rest3).map (fun p => (Char.ofNat code :: p.1, p.2))
                    | _, _, _, _ =>
                      (parseJStr fuel rest3).map (fun p => (Char.ofNat code :: p.1, p.2))
                  | _ =>
                    (parseJStr fuel rest3).map (fun p => (Char.ofNat code :: p.1, p.2))
                else
                  (parseJStr fuel rest3).map (fun p => (Char.ofNat code :: p.1, p.2))
              | _, _, _, _ => none
            | _ => none
          else none
      else if c.toNat < 0x20 then none
      else (parseJStr fuel rest).map (fun p => (c :: p.1, p.2))

/-- Parse a JSON number starting at `cs` (which begins with `-` or a
digit), following CPython's `NUMBER_RE`: integer part `0|[1-9]\d*`,
optional fraction, optional exponent.  Pure integers yield `Json.num`;
a fraction or exponent yields `Json.fnum` (mantissa × 10^exp). -/
def parseJNum (cs : List Char) : Option (Json × List Char) :=
  let (neg, cs1) := match cs with
    | '-' :: t => (true, t)
    | _ => (false, cs)
  match cs1 with
  | [] => none
  | c :: _ =>
    if !isDigitCh c then none
    else
      let (ipart, cs2) :=
        if c = '0' then ([c], cs1.tail)
        else cs1.span isDigitCh
      let (fpart, cs3, fracOk) := match cs2 with
        | '.' :: r =>
          let (ds, r2) := r.span isDigitCh
          if ds.isEmpty then ([], cs2, false) else (ds, r2, true)
        | _ => ([], cs2, true)
      if !fracOk then
        -- the number regex stops before the bare '.', yielding the int part
        let n : Int := if neg then -(digitsToNat ipart : Int) else (digitsToNat ipart : Int)
        some (Json.num n, cs2)
      else
        let (epart, cs4, hasExp) := match cs3 with
          | e :: r =>
            if e = 'e' || e = 'E' then
              match r with
              | '+' :: r2 =>
                let (ds, r3) := r2.span isDigitCh
                if ds.isEmpty then (([], false), cs3, false) else ((ds, false), r3, true)
              | '-' :: r2 =>
                let (ds, r3) := r2.span isDigitCh
                if ds.isEmpty then (([], false), cs3, false) else ((ds, true), r3, true)
              | _ =>
                let (ds, r3) := r.span isDigitCh
                if ds.isEmpty then (([], false), cs3, false) else ((ds, false), r3, true)
            else (([], false), cs3, false)
          | [] => (([], false), cs3, false)
        let rest := if hasExp then cs4 else cs3
        if fpart.isEmpty && !hasExp then
          let n : Int := if neg then -(digitsToNat ipart : Int) else (digitsToNat ipart : Int)
          some (Json.num n, rest)
        else
          let mantNat : Nat := digitsToNat (ipart ++ fpart)
          let mant : Int := if neg then -(mantNat : Int) else (mantNat : Int)
          let eval : Int :=
            if hasExp then
              (if epart.2 then -(digitsToNat epart.1 : Int) else (digitsToNat epart.1 : Int))
            else 0
          some (Json.fnum mant (eval - fpart.length), rest)

mutual

/-- Parse one JSON value at the head of `cs` (no leading whitespace). -/
def parseJVal (fuel : Nat) (cs : List Char) : Option (Json × List Char) :=
  match fuel with
  | 0 => none
  | fuel + 1 =>
    match cs with
    | [] => none
    | c :: rest =>
      if c = '\x22' then
        (parseJStr (rest.length + 1) rest).map (fun p => (Json.str (String.mk p.1), p.2))
      else if c = '\x7b' then
        parseJMembers fuel (skipJsonWs rest)
      else if c = '[' then
        parseJItems fuel (skipJsonWs rest)
      else if List.isPrefixOf "null".data cs then some (Json.null, cs.drop 4)
      else if List.isPrefixOf "true".data cs then some (Json.bool true, cs.drop 4)
      else if List.isPrefixOf "false".data cs then some (Json.bool false, cs.drop 5)
      else if List.isPrefixOf "NaN".data cs then some (Json.nan, cs.drop 3)
      else if List.isPrefixOf "Infinity".data cs then some (Json.inf, cs.drop 8)
      else if List.isPrefixOf "-Infinity".data cs then some (Json.ninf, cs.drop 9)
      else parseJNum cs

/-- Parse object members; `cs` starts just after `{` with leading
whitespace skipped.  Handles the empty object and the
`key : value (, key : value)*` loop; trailing commas are rejected. -/
def parseJMembers (fuel : Nat) (cs : List Char) : Option (Json × List Char) :=
  match fuel with
  | 0 => none
  | fuel + 1 =>
    match cs with
    | '\x7d' :: rest => some (Json.obj [], rest)
    | _ => parseJMemberLoop fuel cs []

/-- The member loop: expects `"key" ws : ws value ws` then `,` or `}`. -/
def parseJMemberLoop (fuel : Nat) (cs : List Char) (acc : List (String × Json)) :
    Option (Json × List Char) :=
  match fuel with
  | 0 => none
  | fuel + 1 =>
    match cs with
    | '\x22' :: rest =>
      match parseJStr (rest.length + 1) rest with
      | none => none
      | some (key, rest2) =>
        match skipJsonWs rest2 with
        | ':' :: rest3 =>
          match parseJVal fuel (skipJsonWs rest3) with
          | none => none
          | some (v, rest4) =>
            match skipJsonWs rest4 with
            | ',' :: rest5 => parseJMemberLoop fuel (skipJsonWs rest5) (acc ++ [(String.mk key, v)])
            | '\x7d' :: rest5 => some (Json.obj (acc ++ [(String.mk key, v)]), rest5)
            | _ => none
        | _ => none
    | _ => none

/-- Parse array items; `cs` starts just after `[` with leading
whitespace skipped. -/
def parseJItems (fuel : Nat) (cs : List Char) : Option (Json × List Char) :=
  match fuel with
  | 0 => none
  | fuel + 1 =>
    match cs with
    | ']' :: rest => some (Json.arr [], rest)
    | _ => parseJItemLoop fuel cs []

/-- The item loop: expects `value ws` then `,` or `]`. -/
def parseJItemLoop (fuel : Nat) (cs : List Char) (acc : List Json) :
    Option (Json × List Char) :=
  match fuel with
  | 0 => none
  | fuel + 1 =>
    match parseJVal fuel cs with
    | none => none
    | some (v, rest) =>
      match skipJsonWs rest with
      | ',' :: rest2 => parseJItemLoop fuel (skipJsonWs rest2) (acc ++ [v])
      | ']' :: rest2 => some (Json.arr (acc ++ [v]), rest2)
      | _ => none

end

/-- `json.loads` on a character list: skip whitespace, parse one value,
require only whitespace after it; any failure is `none` (the caller
wraps the call in `try/except`). -/
def json_loads (g : List Char) : Option Json :=
  let cs := skipJsonWs g
  match parseJVal (2 * cs.length + 2) cs with
  | some (j, rest) => if (skipJsonWs rest).isEmpty then some j else none
  | none => none

/-! ### `json.dumps(..., indent=2)` -/

def hexDigit (n : Nat) : Char :=
  if n < 10 then Char.ofNat (48 + n) else Char.ofNat (87 + n)

def hex4 (n : Nat) : List Char :=
  [hexDigit (n / 4096 % 16), hexDigit (n / 256 % 16), hexDigit (n / 16 % 16), hexDigit (n % 16)]

/-- Escape one character as Python's `json.dumps` does with the default
`ensure_ascii=True`: the short escapes, `\u00xx` for other control
characters, `\uxxxx` for all non-ASCII characters (surrogate pairs
beyond the BMP). -/
def dumpEscChar (c : Char) : List Char :=
  if c = '\x22' then ['\\', '\x22']
  else if c = '\\' then ['\\', '\\']
  else if c = '\n' then ['\\', 'n']
  else if c = '\t' then ['\\', 't']
  else if c = '\r' then ['\\', 'r']
  else if c = '\x08' then ['\\', 'b']
  else if c = '\x0c' then ['\\', 'f']
  else if c.toNat < 0x20 then '\\' :: 'u' :: hex4 c.toNat
  else if c.toNat < 0x7f then [c]
  else if c.toNat < 0x10000 then '\\' :: 'u' :: hex4 c.toNat
  else
    let v := c.toNat - 0x10000
    ('\\' :: 'u' :: hex4 (0xD800 + v / 0x400)) ++ ('\\' :: 'u' :: hex4 (0xDC00 + v % 0x400))

def dumpJStr (s : String) : String :=
  String.mk ('\x22' :: (s.data.flatMap dumpEscChar) ++ ['\x22'])

def padSp (n : Nat) : String := String.mk (List.replicate n ' ')

/-- Decimal rendering of a float mantissa × 10^exp.  This abbreviates
Python's `repr(float)` (shortest round-trip form); no behaviour in this
development depends on the float text. -/
def fnumText (mant : Int) (exp10 : Int) : String :=
  toString mant ++ "e" ++ toString exp10

mutual

/-- `json.dumps(j, indent=2)` at indentation level `ind`: with an indent
the item separator is `,\n` and the key separator `: `; empty
containers render with no inner newline. -/
def dumpsInd : Json → Nat → String
  | .null, _ => "null"
  | .bool true, _ => "true"
  | .bool false, _ => "false"
  | .num n, _ => toString n
  | .fnum m e, _ => fnumText m e
  | .nan, _ => "NaN"
  | .inf, _ => "Infinity"
  | .ninf, _ => "-Infinity"
  | .str s, _ => dumpJStr s
  | .arr [], _ => "[]"
  | .arr (x :: xs), ind =>
      "[\n" ++ padSp (ind + 2) ++ dumpsInd x (ind + 2) ++ dumpsItems xs (ind + 2)
        ++ "\n" ++ padSp ind ++ "]"
  | .obj [], _ => "\x7b\x7d"
  | .obj ((k, v) :: ms), ind =>
      "\x7b\n" ++ padSp (ind + 2) ++ dumpJStr k ++ ": " ++ dumpsInd v (ind + 2)
        ++ dumpsMembers ms (ind + 2) ++ "\n" ++ padSp ind ++ "\x7d"

/-- The `,\n`-separated tail items of a non-empty array. -/
def dumpsItems : List Json → Nat → String
  | [], _ => ""
  | y :: ys, ind => ",\n" ++ padSp ind ++ dumpsInd y ind ++ dumpsItems ys ind

/-- The `,\n`-separated tail members of a non-empty object. -/
def dumpsMembers : List (String × Json) → Nat → String
  | [], _ => ""
  | (k, v) :: ys, ind =>
      ",\n" ++ padSp ind ++ dumpJStr k ++ ": " ++ dumpsInd v ind ++ dumpsMembers ys ind

end

/-- `json.dumps(j, indent=2)` as used throughout the orchestrator. -/
def json_dumps_indent2 (j : Json) : String := dumpsInd j 0

/-! ### The two extraction regexes

`TOOL_JSON_RE = re.compile(r"```json\s*({.*?})\s*```", re.DOTALL)` and
the fallback `re.search(r"(\{[\s\S]*\})", s)`, modelled operationally
with Python's leftmost-match `re.search` semantics. -/

/-- Does `cs` begin with three backticks (after the `\s*` that follows
the lazily matched `}`)? -/
def ticksAt (cs : List Char) : Bool :=
  List.isPrefixOf "```".data (skipPySpace cs)

/-- The lazy `.*?` body scan of `TOOL_JSON_RE`: find the first `}` that
is followed by optional whitespace and three backticks; return the body
characters strictly before that `}` (the lazy quantifier includes any
earlier non-qualifying `}` in the body, as `re.DOTALL` lets `.` match
everything). -/
def lazyBody : List Char → Option (List Char)
  | [] => none
  | c :: rest =>
    if c = '\x7d' && ticksAt rest then some []
    else (lazyBody rest).map (c :: ·)

/-- Attempt the tail of `TOOL_JSON_RE` just after a literal
` ```json `: greedy `\s*`, a literal `{`, then the lazy body scan;
returns the captured group `{...}`. -/
def fencedAt (cs : List Char) : Option (List Char) :=
  match skipPySpace cs with
  | '\x7b' :: rest =>
    (lazyBody rest).map (fun body => '\x7b' :: body ++ ['\x7d'])
  | _ => none

/-- `TOOL_JSON_RE.search(s)`: the leftmost occurrence of ` ```json `
whose continuation matches yields the captured group. -/
def fencedSearch : List Char → Option (List Char)
  | [] => none
  | c :: rest =>
    if List.isPrefixOf "```json".data (c :: rest) then
      match fencedAt ((c :: rest).drop 7) with
      | some g => some g
      | none => fencedSearch rest
    else fencedSearch rest

/-- The greedy `[\s\S]*\}` tail of the fallback regex: the longest
prefix of `cs` ending in `}` (i.e. everything up to the last `}`), if
any `}` occurs. -/
def lastBracePrefix : List Char → Option (List Char)
  | [] => none
  | c :: rest =>
    match lastBracePrefix rest with
    | some p => some (c :: p)
    | none => if c = '\x7d' then some [c] else none

/-- `re.search(r"(\{[\s\S]*\})", s)`: at the leftmost `{` that has some
`}` after it, capture greedily through the last `}` of the text. -/
def braceSearch : List Char → Option (List Char)
  | [] => none
  | c :: rest =>
    if c = '\x7b' then
      match lastBracePrefix rest with
      | some p => some ('\x7b' :: p)
      | none => braceSearch rest
    else braceSearch rest

/-- `extract_tool_json` (`llm_utcp_client.py`): try the fenced-block
regex; only when it finds no match at all, fall back to the greedy
brace-span regex; parse whichever group was captured, with any parse
failure (and the no-match case) yielding `none`. -/
def extract_tool_json (s : String) : Option Json :=
  let m := fencedSearch s.data
  let m := match m with
    | none => braceSearch s.data
    | some g => some g
  match m with
  | none => none
  | some g => json_loads g

/-! ### Python `str`/`repr` of parsed JSON values

`handle_user_query` interpolates `tool_name` and `arguments` (values
produced by `json.loads`) into an f-string, which applies `str`. -/

/-- `repr` of a Python `str`: single-quoted unless the text contains a
single quote and no double quote; standard short escapes, `\xhh` for
other control characters. -/
def pyReprStr (s : String) : String :=
  let hasSingle := s.data.any (· = '\x27')
  let hasDouble := s.data.any (· = '\x22')
  let q : Char := if hasSingle && !hasDouble then '\x22' else '\x27'
  let esc : Char → List Char := fun c =>
    if c = '\\' then ['\\', '\\']
    else if c = q then ['\\', q]
    else if c = '\n' then ['\\', 'n']
    else if c = '\r' then ['\\', 'r']
    else if c = '\t' then ['\\', 't']
    else if c.toNat < 0x20 then ['\\', 'x', hexDigit (c.toNat / 16), hexDigit (c.toNat % 16)]
    else [c]
  String.mk (q :: s.data.flatMap esc ++ [q])

mutual

/-- Python `repr` on values `json.loads` can produce.  Floats render in
an abbreviated exponent form (see `fnumText`); nothing here depends on
float text. -/
def pyRepr : Json → String
  | .null => "None"
  | .bool true => "True"
  | .bool false => "False"
  | .num n => toString n
  | .fnum m e => fnumText m e
  | .nan => "nan"
  | .inf => "inf"
  | .ninf => "-inf"
  | .str s => pyReprStr s
  | .arr [] => "[]"
  | .arr (x :: xs) => "[" ++ pyRepr x ++ pyReprList xs ++ "]"
  | .obj [] => "\x7b\x7d"
  | .obj ((k, v) :: ms) =>
      "\x7b" ++ pyReprStr k ++ ": " ++ pyRepr v ++ pyReprMembers ms ++ "\x7d"

def pyReprList : List Json → String
  | [] => ""
  | x :: xs => ", " ++ pyRepr x ++ pyReprList xs

def pyReprMembers : List (String × Json) → String
  | [] => ""
  | (k, v) :: ms => ", " ++ pyReprStr k ++ ": " ++ pyRepr v ++ pyReprMembers ms

end

/-- Python `str` (as applied by f-string interpolation): the text
itself for strings, `repr` otherwise. -/
def pyStr : Json → String
  | .str s => s
  | j => pyRepr j

/-! ### Truthiness and dict key access -/

/-- Python truthiness of a `json.loads` value (`not tool_obj`). -/
def pyTruthy : Json → Bool
  | .null => false
  | .bool b => b
  | .num n => n != 0
  | .fnum m _ => m != 0
  | .nan => true
  | .inf => true
  | .ninf => true
  | .str s => !s.isEmpty
  | .arr xs => !xs.isEmpty
  | .obj ms => !ms.isEmpty

/-- `"k" in d` on a parsed JSON object (`False` shape never reaches the
non-dict cases: both regex groups start with a brace, so a successful
parse is always an object). -/
def Json.hasKey : Json → String → Bool
  | .obj ms, k => ms.any (fun m => m.1 = k)
  | _, _ => false

/-- `d["k"]` on a parsed JSON object; with duplicate keys Python's
`json.loads` keeps the last binding. -/
def Json.getKey : Json → String → Option Json
  | .obj ms, k => (ms.reverse.find? (fun m => m.1 = k)).map (·.2)
  | _, _ => none

/-! ### Prompts and message building (`llm_utcp_client.py` lines 64-90) -/

/-- A chat message `{"role": r, "content": c}`. -/
abbrev Msg := String × String

/-- A conversation history entry `(role, content)`. -/
abbrev History := List (String × String)

instance : DecidableEq (String × String × String × History) := inferInstance

def TOOL_CALL_SYSTEM : String :=
  "You are a careful network automation assistant.\n"
  ++ "You have access to a set of tools via UTCP. When a tool is needed, you MUST reply with ONLY a JSON object\n"
  ++ "containing exactly two keys: \x27tool_name\x27 and \x27arguments\x27 (arguments must be a JSON object). No other text.\n"
  ++ "Example: \x7b\x22tool_name\x22: \x22netconf_tools.netconf_get_config\x22, \x22arguments\x22: \x7b\x22host\x22:\x221.2.3.4\x22, \x22source\x22:\x22running\x22\x7d\x7d\n\n"
  ++ "Here are the available tools (names, descriptions, and JSON argument schemas):\n"

def FINAL_ANSWER_SYSTEM : String :=
  "You are a helpful assistant. Use the provided tool output to answer the user\x27s request concisely and clearly.\n"
  ++ "If the tool failed, explain the error and suggest the next troubleshooting step.\n"

/-- `tools_to_json_for_prompt`: `json.dumps([t.model_dump() ...],
indent=2)`; the serialized tool dicts are supplied by the environment
as `Json` values. -/
def tools_to_json_for_prompt (tools : List Json) : String :=
  json_dumps_indent2 (Json.arr tools)

/-- `build_tool_call_messages`: one system turn holding the instruction
text and the serialized tools, then the history replayed verbatim. -/
def build_tool_call_messages (history : History) (tools_json : String) : List Msg :=
  ("system", TOOL_CALL_SYSTEM ++ tools_json ++ "\n") :: history

/-- `build_final_messages`: the synthesis system turn, the history, and
one final user turn embedding the tool output. -/
def build_final_messages (history : History) (tool_output : String) : List Msg :=
  ("system", FINAL_ANSWER_SYSTEM) :: history
    ++ [("user", "Tool output:\n" ++ tool_output
          ++ "\n\nPlease answer the original request using this output.")]

/-! ### The effect environment and the orchestrator -/

/-- The external collaborators of one `handle_user_query` invocation:
`init_utcp` (fatal failure or a ready client), `client.search_tools`
(the discovered tools, already `model_dump`ped), the OpenAI completion
endpoint (`.error` = transport/auth exception; `.ok none` = a response
whose `message.content` is null), and `client.call_tool` (`.error e` =
the exception `e` caught at line 146, `.ok r` = the JSON-dumpable
result). -/
structure Env where
  init : Except String Unit
  searchTools : String → Nat → Except String (List Json)
  completeRaw : List Msg → Except String (Option String)
  callTool : Json → Json → Except String Json

/-- One observable effect of an orchestrator run. -/
inductive Event where
  | initU
  | discovery (query : String) (limit : Nat)
  | completion (msgs : List Msg)
  | toolExec (name : Json) (args : Json)
deriving DecidableEq

/-- `chat_complete`: one completion round trip;
`resp.choices[0].message.content or ""` maps a null content to the
empty string. -/
def chat_complete (env : Env) (messages : List Msg) : Except String String :=
  match env.completeRaw messages with
  | .error e => .error e
  | .ok content => .ok (content.getD "")

/-- `discover_tools(client, query, limit)` = `client.search_tools`. -/
def discover_tools (env : Env) (query : String) (limit : Nat) :
    Except String (List Json) :=
  env.searchTools query limit

/-- `handle_user_query` (`llm_utcp_client.py` lines 120-157): the
two-phase orchestration.  Returns the Python function's result
`(assistant_tool_json, tool_result_text, final_answer,
updated_history)` in `.ok`, or `.error` when an uncaught exception
propagates (init, discovery or completion failure), paired with the
list of effects performed up to that point. -/
def handle_user_query (env : Env) (user_text : String) (state_history : History) :
    Except String (String × String × String × History) × List Event :=
  match env.init with
  | .error e => (.error e, [Event.initU])
  | .ok _ =>
  match discover_tools env "netconf" 50 with
  | .error e => (.error e, [Event.initU, Event.discovery "netconf" 50])
  | .ok tools =>
    let tools_json := tools_to_json_for_prompt tools
    -- Step 1: history = state_history.copy(); history.append(("user", user_text))
    let history := state_history ++ [("user", user_text)]
    let msgs_tool := build_tool_call_messages history tools_json
    match chat_complete env msgs_tool with
    | .error e => (.error e, [Event.initU, Event.discovery "netconf" 50, Event.completion msgs_tool])
    | .ok assistant_raw =>
      let tool_obj := extract_tool_json assistant_raw
      let noToolCase :=
        (Except.ok (assistant_raw, "(no tool called)", assistant_raw,
            history ++ [("assistant", assistant_raw)]),
         [Event.initU, Event.discovery "netconf" 50, Event.completion msgs_tool])
      match tool_obj with
      | none => noToolCase
      | some tj =>
        if !pyTruthy tj || !tj.hasKey "tool_name" || !tj.hasKey "arguments" then
          noToolCase
        else
          -- Step 2: execute the tool, containing any exception
          let tool_name := (tj.getKey "tool_name").getD Json.null
          let arguments := (tj.getKey "arguments").getD Json.null
          let tool_result_text :=
            match env.callTool tool_name arguments with
            | .ok tool_result => json_dumps_indent2 tool_result
            | .error e =>
              "Tool call error for " ++ pyStr tool_name ++ " with args "
                ++ pyStr arguments ++ ":\n" ++ e
          let history2 := history ++ [("assistant", json_dumps_indent2 tj)]
          -- Step 3: final answer from the tool output
          let msgs_final := build_final_messages history2 tool_result_text
          match chat_complete env msgs_final with
          | .error e =>
            (.error e,
             [Event.initU, Event.discovery "netconf" 50, Event.completion msgs_tool,
              Event.toolExec tool_name arguments, Event.completion msgs_final])
          | .ok final_answer =>
            (.ok (json_dumps_indent2 tj, tool_result_text, final_answer,
                  history2 ++ [("assistant", final_answer)]),
             [Event.initU, Event.discovery "netconf" 50, Event.completion msgs_tool,
              Event.toolExec tool_name arguments, Event.completion msgs_final])

/-- Is this event a completion round trip? -/
def isCompletionEv : Event → Bool
  | Event.completion _ => true
  | _ => false

/-- Is this event a tool execution? -/
def isExecEv : Event → Bool
  | Event.toolExec _ _ => true
  | _ => false

/-- Number of `chat_complete` round trips in an event list. -/
def countCompletions (evs : List Event) : Nat := evs.countP isCompletionEv

/-- Whether a tool execution was attempted. -/
def hasExec (evs : List Event) : Bool := evs.any isExecEv

/-! ### Heap-level model of the history lists

Python lists are mutable references.  To state that `handle_user_query`
never mutates the caller's list (it works on `state_history.copy()`),
the same control flow is replayed over an explicit store of lists, with
`.copy()` as an allocation and `.append` as an in-place write. -/

/-- The store: every live Python list of `(role, content)` tuples,
addressed by index. -/
abbrev Store := List History

def readRef (st : Store) (r : Nat) : History := (st[r]?).getD []

def writeRef (st : Store) (r : Nat) (h : History) : Store := st.set r h

/-- `xs.copy()`: allocate a fresh list with the same elements. -/
def allocRef (st : Store) (h : History) : Store × Nat := (st ++ [h], st.length)

/-- `handle_user_query` replayed over the store: `state_history` is the
reference `stateRef`; line 129 copies it into a fresh reference and
every `.append` writes that fresh reference in place.  Returns the
result (with the updated history as a reference) and the final store;
on a fatal failure the store keeps whatever writes happened before the
exception. -/
def handle_user_query_heap (env : Env) (user_text : String) (st0 : Store) (stateRef : Nat) :
    Except String (String × String × String × Nat) × Store :=
  match env.init with
  | .error e => (.error e, st0)
  | .ok _ =>
  match discover_tools env "netconf" 50 with
  | .error e => (.error e, st0)
  | .ok tools =>
    let tools_json := tools_to_json_for_prompt tools
    let (st1, histRef) := allocRef st0 (readRef st0 stateRef)
    let st2 := writeRef st1 histRef (readRef st1 histRef ++ [("user", user_text)])
    let msgs_tool := build_tool_call_messages (readRef st2 histRef) tools_json
    match chat_complete env msgs_tool with
    | .error e => (.error e, st2)
    | .ok assistant_raw =>
      let tool_obj := extract_tool_json assistant_raw
      match tool_obj with
      | none =>
        let st3 := writeRef st2 histRef (readRef st2 histRef ++ [("assistant", assistant_raw)])
        (.ok (assistant_raw, "(no tool called)", assistant_raw, histRef), st3)
      | some tj =>
        if !pyTruthy tj || !tj.hasKey "tool_name" || !tj.hasKey "arguments" then
          let st3 := writeRef st2 histRef (readRef st2 histRef ++ [("assistant", assistant_raw)])
          (.ok (assistant_raw, "(no tool called)", assistant_raw, histRef), st3)
        else
          let tool_name := (tj.getKey "tool_name").getD Json.null
          let arguments := (tj.getKey "arguments").getD Json.null
          let tool_result_text :=
            match env.callTool tool_name arguments with
            | .ok tool_result => json_dumps_indent2 tool_result
            | .error e =>
              "Tool call error for " ++ pyStr tool_name ++ " with args "
                ++ pyStr arguments ++ ":\n" ++ e
          let st3 := writeRef st2 histRef (readRef st2 histRef ++ [("assistant", json_dumps_indent2 tj)])
          let msgs_final := build_final_messages (readRef st3 histRef) tool_result_text
          match chat_complete env msgs_final with
          | .error e => (.error e, st3)
          | .ok final_answer =>
            let st4 := writeRef st3 histRef (readRef st3 histRef ++ [("assistant", final_answer)])
            (.ok (json_dumps_indent2 tj, tool_result_text, final_answer, histRef), st4)

/-! ### The lazy singleton `init_utcp` under cooperative concurrency

`init_utcp` checks the module global `_utcp_client`, and if it is unset
`await`s `UtcpClient.create(cfg)` — a suspension point — before
assigning the global.  Each task runs atomically between suspension
points, so a task is at one of three program counters: 0 = about to run
the check (function entry), 1 = suspended inside `await
UtcpClient.create`, 2 = returned.  `creations` counts how many times
`UtcpClient.create` was started. -/
structure InitSys where
  utcpClient : Option Nat
  creations : Nat
  pcs : List Nat
deriving DecidableEq

/-- Run task `t` for one atomic step (scheduling a finished or unknown
task is a no-op). -/
def initStep (s : InitSys) (t : Nat) : InitSys :=
  match s.pcs[t]? with
  | some 0 =>
    match s.utcpClient with
    | some _ => { s with pcs := s.pcs.set t 2 }
    | none => { s with creations := s.creations + 1, pcs := s.pcs.set t 1 }
  | some 1 => { s with utcpClient := some s.creations, pcs := s.pcs.set t 2 }
  | _ => s

/-- Run a schedule (a list of task choices) from a state. -/
def runSched (s : InitSys) (sched : List Nat) : InitSys :=
  sched.foldl initStep s

/-- Two concurrent first requests, nothing initialised yet. -/
def freshTwoTasks : InitSys := { utcpClient := none, creations := 0, pcs := [0, 0] }

/-! ### Concrete environments used as witnesses -/

/-- A reply carrying a well-formed fenced tool call. -/
def replyFenced : String :=
  "```json\n\x7b\x22tool_name\x22:\x22t\x22,\x22arguments\x22:\x7b\x22a\x22:1\x7d\x7d\n```"

/-- The same object, unfenced, as the only brace-delimited text. -/
def replyUnfenced : String :=
  "\x7b\x22tool_name\x22:\x22t\x22,\x22arguments\x22:\x7b\x22a\x22:1\x7d\x7d"

/-- A reply whose `arguments` value is the scalar `5`. -/
def replyScalarArgs : String :=
  "\x7b\x22tool_name\x22:\x22t\x22,\x22arguments\x22:5\x7d"

/-- An environment whose phase-1 completion proposes `replyUnfenced`,
whose phase-2 completion answers `final`, whose catalog is empty and
whose tool call fails with `boom` (the two phases are told apart by the
system prompt heading the message list, as built by the two prompt
builders). -/
def envToolError : Env where
  init := .ok ()
  searchTools := fun _ _ => .ok []
  completeRaw := fun msgs =>
    match msgs with
    | ("system", c) :: _ =>
      if c = FINAL_ANSWER_SYSTEM then .ok (some "final") else .ok (some replyUnfenced)
    | _ => .ok (some replyUnfenced)
  callTool := fun _ _ => .error "boom"

/-- Like `envToolError` but the tool call succeeds with `null`. -/
def envToolOk : Env where
  init := .ok ()
  searchTools := fun _ _ => .ok []
  completeRaw := fun msgs =>
    match msgs with
    | ("system", c) :: _ =>
      if c = FINAL_ANSWER_SYSTEM then .ok (some "final") else .ok (some replyScalarArgs)
    | _ => .ok (some replyScalarArgs)
  callTool := fun _ _ => .ok Json.null

/-- An environment whose completion replies with plain prose. -/
def envNoTool : Env where
  init := .ok ()
  searchTools := fun _ _ => .ok []
  completeRaw := fun _ => .ok (some "Just prose, no JSON here.")
  callTool := fun _ _ => .ok Json.null

/-- An environment whose completion response has a null `content`. -/
def envNullContent : Env where
  init := .ok ()
  searchTools := fun _ _ => .ok []
  completeRaw := fun _ => .ok none
  callTool := fun _ _ => .ok Json.null

/-- The parsed tool-call object shared by `replyFenced` and
`replyUnfenced`. -/
def toolCallObj : Json :=
  Json.obj [("tool_name", Json.str "t"), ("arguments", Json.obj [("a", Json.num 1)])]

/-- The parsed object of `replyScalarArgs`. -/
def scalarArgsObj : Json :=
  Json.obj [("tool_name", Json.str "t"), ("arguments", Json.num 5)]

/-- Substring containment (Python's `in` on `str`). -/
def strContains (hay pat : String) : Prop := pat.data <:+: hay.data

/-- A reply in which a fenced block is located but its content `{,}` is
not valid JSON, while the text as a whole is one valid JSON object (the
fenced garbage sits inside a string value). -/
def replyFencedBad : String := "\x7b\x22a\x22: \x22```json \x7b,\x7d ```\x22\x7d"

/-- A reply containing two separate complete JSON objects. -/
def replyTwoObjects : String := "\x7b\x22a\x22: 1\x7d \x7b\x22b\x22: 2\x7d"

/-- Modelled from the spec: the spec's tier-2 description — "locate the
first brace-delimited substring spanning from the first `{` to a
matching closing `}`", by "balanced-brace scanning (track nesting
depth, stop at the matching closer)".  The body scan keeps a nesting
depth and stops at the closer matching the opening brace. -/
def balancedScan : List Char → Nat → Option (List Char)
  | [], _ => none
  | c :: rest, d =>
    if c = '\x7d' then
      if d = 1 then some [c] else (balancedScan rest (d - 1)).map (c :: ·)
    else if c = '\x7b' then (balancedScan rest (d + 1)).map (c :: ·)
    else (balancedScan rest d).map (c :: ·)

/-- Modelled from the spec: the first balanced brace-delimited
substring, from the first `{` to its matching `}`. -/
def balanced_first_span (cs : List Char) : Option (List Char) :=
  match cs.dropWhile (fun c => !(c = '\x7b')) with
  | '\x7b' :: rest => (balancedScan rest 1).map ('\x7b' :: ·)
  | _ => none

/-! ### Shape of the greedy tier-2 capture -/

theorem lastBracePrefix_eq_none (cs : List Char) (h : '\x7d' ∉ cs) :
    lastBracePrefix cs = none := by
  induction cs with
  | nil => rfl
  | cons c rest ih =>
      simp only [List.mem_cons, not_or] at h
      have hc : ¬ c = '\x7d' := fun hh => h.1 hh.symm
      simp [lastBracePrefix, ih h.2, hc]

theorem lastBracePrefix_isSome (cs : List Char) (h : '\x7d' ∈ cs) :
    (lastBracePrefix cs).isSome := by
  induction cs with
  | nil => simp at h
  | cons c rest ih =>
      rcases List.mem_cons.mp h with hc | hm
      · cases hrec : lastBracePrefix rest <;> simp [lastBracePrefix, hrec, hc.symm]
      · have := ih hm
        cases hrec : lastBracePrefix rest with
        | none => rw [hrec] at this; simp at this
        | some p => simp [lastBracePrefix, hrec]

/-- The greedy `[\s\S]*\}` capture: `lastBracePrefix` splits its input
at the last `}`. -/
theorem lastBracePrefix_spec (cs p : List Char) (h : lastBracePrefix cs = some p) :
    ∃ q, cs = p ++ q ∧ p.getLast? = some '\x7d' ∧ '\x7d' ∉ q := by
  induction cs generalizing p with
  | nil => simp [lastBracePrefix] at h
  | cons c rest ih =>
      rw [lastBracePrefix] at h
      cases hrec : lastBracePrefix rest with
      | some p' =>
          rw [hrec] at h
          simp only [Option.some.injEq] at h
          obtain ⟨q, hq, hlast, hnot⟩ := ih p' hrec
          refine ⟨q, ?_, ?_, hnot⟩
          · simp [← h, hq]
          · rw [← h]
            obtain ⟨l', hl'⟩ := List.getLast?_eq_some_iff.mp hlast
            rw [hl', ← List.cons_append, List.getLast?_concat]
      | none =>
          rw [hrec] at h
          dsimp only at h
          by_cases hc : c = '\x7d'
          · rw [if_pos hc] at h
            simp only [Option.some.injEq] at h
            refine ⟨rest, by simp [← h, hc], by rw [← h]; simpa using hc, ?_⟩
            intro hmem
            have := lastBracePrefix_isSome rest hmem
            rw [hrec] at this
            simp at this
          · simp [hc] at h

/-- Soundness of the tier-2 regex search: a capture spans from the
first `{` of the text to the last `}` of the text. -/
theorem braceSearch_spec (cs g : List Char) (h : braceSearch cs = some g) :
    ∃ pre post, cs = pre ++ g ++ post ∧ '\x7b' ∉ pre ∧ '\x7d' ∉ post ∧
      g.head? = some '\x7b' ∧ g.getLast? = some '\x7d' := by
  induction cs generalizing g with
  | nil => simp [braceSearch] at h
  | cons c rest ih =>
      rw [braceSearch] at h
      by_cases hc : c = '\x7b'
      · rw [if_pos hc] at h
        cases hrec : lastBracePrefix rest with
        | some p =>
            rw [hrec] at h
            simp only [Option.some.injEq] at h
            obtain ⟨q, hq, hlast, hnot⟩ := lastBracePrefix_spec rest p hrec
            refine ⟨[], q, by simp [← h, hq, hc], by simp, hnot, by simp [← h], ?_⟩
            rw [← h]
            obtain ⟨l', hl'⟩ := List.getLast?_eq_some_iff.mp hlast
            rw [hl', ← List.cons_append, List.getLast?_concat]
        | none =>
            rw [hrec] at h
            obtain ⟨pre, post, hsplit, hpre, hpost, hhead, hlast⟩ := ih g h
            exfalso
            have hmem : '\x7d' ∈ rest := by
              have hg : '\x7d' ∈ g := List.mem_of_getLast?_eq_some hlast
              rw [hsplit]
              exact List.mem_append.mpr (Or.inl (List.mem_append.mpr (Or.inr hg)))
            have := lastBracePrefix_isSome rest hmem
            rw [hrec] at this
            simp at this
      · rw [if_neg hc] at h
        obtain ⟨pre, post, hsplit, hpre, hpost, hhead, hlast⟩ := ih g h
        refine ⟨c :: pre, post, by simp [hsplit], ?_, hpost, hhead, hlast⟩
        simp only [List.mem_cons, not_or]
        exact ⟨fun hh => hc hh.symm, hpre⟩

/-! ## Claim theorems -/

/-- C6: on the fenced reply ` ```json\n{"tool_name":"t","arguments":{"a":1}}\n``` `
the extractor returns exactly the object `{tool_name: "t", arguments: {a: 1}}`,
and on the same object unfenced as the only brace-delimited text it returns
the identical object. -/
theorem extract_fenced_and_unfenced_exact :
    extract_tool_json replyFenced =
      some (Json.obj [("tool_name", Json.str "t"), ("arguments", Json.obj [("a", Json.num 1)])])
    ∧ extract_tool_json replyUnfenced =
      some (Json.obj [("tool_name", Json.str "t"), ("arguments", Json.obj [("a", Json.num 1)])]) := by
  decide

/-- C4 (counterexample): on `{"a": "```json {,} ```"}` a fenced block is
located and its content `{,}` fails to parse, the second tier would
succeed on the whole text, yet `extract_tool_json` returns `none`
without attempting the second tier — refuting the claimed fallback. -/
theorem fenced_parse_failure_no_fallback :
    fencedSearch replyFencedBad.data = some "\x7b,\x7d".data
    ∧ json_loads "\x7b,\x7d".data = none
    ∧ (braceSearch replyFencedBad.data).bind json_loads =
        some (Json.obj [("a", Json.str "```json \x7b,\x7d ```")])
    ∧ extract_tool_json replyFencedBad = none := by
  decide

/-- C4 (amended): the second tier is attempted only when the fenced
regex finds no match at all; whenever a fenced block is located, the
extraction result is the parse of that block's content (so a parse
failure inside a located fenced block yields "no call" directly). -/
theorem fenced_found_skips_brace_tier (s : String) (g : List Char)
    (h : fencedSearch s.data = some g) :
    extract_tool_json s = json_loads g := by
  simp only [extract_tool_json, h]

/-- Witness for `fenced_found_skips_brace_tier` at `replyFencedBad`. -/
theorem fenced_found_skips_brace_tier_witness :
    extract_tool_json replyFencedBad = json_loads "\x7b,\x7d".data :=
  fenced_found_skips_brace_tier replyFencedBad "\x7b,\x7d".data (by decide)

/-- C5 (counterexample): on the reply `{"a": 1} {"b": 2}` (no fenced
block) the claimed behaviour — parse the first balanced object — would
produce `{a: 1}`, but the code's tier-2 regex captures the greedy span
from the first `{` to the last `}` (the whole text), whose parse fails,
so `extract_tool_json` returns `none`. -/
theorem two_objects_greedy_span_fails :
    fencedSearch replyTwoObjects.data = none
    ∧ balanced_first_span replyTwoObjects.data = some "\x7b\x22a\x22: 1\x7d".data
    ∧ json_loads "\x7b\x22a\x22: 1\x7d".data = some (Json.obj [("a", Json.num 1)])
    ∧ braceSearch replyTwoObjects.data = some replyTwoObjects.data
    ∧ extract_tool_json replyTwoObjects = none := by
  decide

/-- C5 (amended): with no fenced block, the tier-2 fallback parses the
greedy span running from the first `{` of the text to the last `}` of
the text (not the first balanced object): the capture decomposes the
input as `pre ++ g ++ post` with no `{` before it and no `}` after
it. -/
theorem brace_tier_spans_first_to_last (s : String) (g : List Char)
    (hf : fencedSearch s.data = none) (hb : braceSearch s.data = some g) :
    extract_tool_json s = json_loads g ∧
    ∃ pre post, s.data = pre ++ g ++ post ∧ '\x7b' ∉ pre ∧ '\x7d' ∉ post ∧
      g.head? = some '\x7b' ∧ g.getLast? = some '\x7d' :=
  ⟨by simp only [extract_tool_json, hf, hb], braceSearch_spec s.data g hb⟩

/-- Witness for `brace_tier_spans_first_to_last` at `replyTwoObjects`. -/
theorem brace_tier_spans_first_to_last_witness :
    extract_tool_json replyTwoObjects = json_loads replyTwoObjects.data :=
  (brace_tier_spans_first_to_last replyTwoObjects replyTwoObjects.data
    (by decide) (by decide)).1

/-- C9 (counterexample): initialization is not single-flight.  Two
tasks racing into `init_utcp` from the fresh state, interleaved at the
`await UtcpClient.create` suspension point (schedule `[0, 1, 0, 1]`),
both observe the unset global and both construct the client: the claim
"constructed at most once for any set of concurrent first requests" is
false. -/
theorem racing_first_requests_double_create :
    ¬ (∀ sched : List Nat, (runSched freshTwoTasks sched).creations ≤ 1) := by
  intro hall
  have h := hall [0, 1, 0, 1]
  revert h
  decide

/-- C9 (amended): `init_utcp` is lazy and unguarded: a request entering
it after the client handle is set returns the existing handle without
constructing (no new creation, task done), but concurrent first
requests interleaving at the construction suspension point can
construct the client twice. -/
theorem init_utcp_lazy_unguarded :
    (∀ (s : InitSys) (t : Nat) (c : Nat), s.utcpClient = some c → s.pcs[t]? = some 0 →
        initStep s t = { s with pcs := s.pcs.set t 2 })
    ∧ ∃ sched : List Nat, (runSched freshTwoTasks sched).creations = 2 := by
  constructor
  · intro s t c hc ht
    simp [initStep, ht, hc]
  · exact ⟨[0, 1, 0, 1], by decide⟩

/-- Witness for `init_utcp_lazy_unguarded`: one task entering
`init_utcp` with the client already constructed just returns. -/
theorem init_utcp_lazy_unguarded_witness :
    initStep { utcpClient := some 0, creations := 1, pcs := [0] } 0
      = { utcpClient := some 0, creations := 1, pcs := [2] } :=
  init_utcp_lazy_unguarded.1 { utcpClient := some 0, creations := 1, pcs := [0] } 0 0 rfl rfl

/-- C2: when the phase-1 reply yields no parseable tool call, the
orchestrator returns `"(no tool called)"` as the tool-result text, the
raw reply as both proposed call and final answer, performs no tool
execution and no second completion, and the updated history is the
input plus exactly the user turn and the raw assistant turn. -/
theorem handle_user_query_no_tool_path (env : Env) (u : String) (hist : History)
    (tools : List Json) (raw : String)
    (hinit : env.init = .ok ())
    (hdisc : env.searchTools "netconf" 50 = .ok tools)
    (hraw : chat_complete env (build_tool_call_messages (hist ++ [("user", u)])
              (tools_to_json_for_prompt tools)) = .ok raw)
    (hx : extract_tool_json raw = none) :
    handle_user_query env u hist =
      (.ok (raw, "(no tool called)", raw, hist ++ [("user", u), ("assistant", raw)]),
       [Event.initU, Event.discovery "netconf" 50,
        Event.completion (build_tool_call_messages (hist ++ [("user", u)])
          (tools_to_json_for_prompt tools))]) := by
  simp only [handle_user_query, discover_tools, hinit, hdisc, hraw, hx]
  simp

/-- Witness for `handle_user_query_no_tool_path` on a prose reply. -/
theorem handle_user_query_no_tool_path_witness :
    handle_user_query envNoTool "q" [] =
      (.ok ("Just prose, no JSON here.", "(no tool called)", "Just prose, no JSON here.",
        [("user", "q"), ("assistant", "Just prose, no JSON here.")]),
       [Event.initU, Event.discovery "netconf" 50,
        Event.completion (build_tool_call_messages [("user", "q")]
          (tools_to_json_for_prompt []))]) :=
  handle_user_query_no_tool_path envNoTool "q" [] [] "Just prose, no JSON here."
    rfl rfl (by decide) (by decide)

/-- C1: when the tool execution raises, the failure is contained: the
tool-result text is the diagnostic f-string embedding the tool name,
the arguments and the error text (each of which it contains as a
substring), the phase-2 completion still runs, the orchestrator returns
normally, and the history grows by exactly three turns (user,
assistant-call, assistant-final). -/
theorem handle_user_query_contains_tool_failure (env : Env) (u : String) (hist : History)
    (tools : List Json) (raw : String) (tj : Json) (errMsg fa : String)
    (hinit : env.init = .ok ())
    (hdisc : env.searchTools "netconf" 50 = .ok tools)
    (hraw : chat_complete env (build_tool_call_messages (hist ++ [("user", u)])
              (tools_to_json_for_prompt tools)) = .ok raw)
    (hx : extract_tool_json raw = some tj)
    (htr : pyTruthy tj = true)
    (hk1 : tj.hasKey "tool_name" = true)
    (hk2 : tj.hasKey "arguments" = true)
    (herr : env.callTool ((tj.getKey "tool_name").getD Json.null)
              ((tj.getKey "arguments").getD Json.null) = .error errMsg)
    (hfin : chat_complete env (build_final_messages
              (hist ++ [("user", u), ("assistant", json_dumps_indent2 tj)])
              ("Tool call error for " ++ pyStr ((tj.getKey "tool_name").getD Json.null)
                ++ " with args " ++ pyStr ((tj.getKey "arguments").getD Json.null)
                ++ ":\n" ++ errMsg)) = .ok fa) :
    handle_user_query env u hist =
      (.ok (json_dumps_indent2 tj,
            "Tool call error for " ++ pyStr ((tj.getKey "tool_name").getD Json.null)
              ++ " with args " ++ pyStr ((tj.getKey "arguments").getD Json.null)
              ++ ":\n" ++ errMsg,
            fa,
            hist ++ [("user", u), ("assistant", json_dumps_indent2 tj), ("assistant", fa)]),
       [Event.initU, Event.discovery "netconf" 50,
        Event.completion (build_tool_call_messages (hist ++ [("user", u)])
          (tools_to_json_for_prompt tools)),
        Event.toolExec ((tj.getKey "tool_name").getD Json.null)
          ((tj.getKey "arguments").getD Json.null),
        Event.completion (build_final_messages
          (hist ++ [("user", u), ("assistant", json_dumps_indent2 tj)])
          ("Tool call error for " ++ pyStr ((tj.getKey "tool_name").getD Json.null)
            ++ " with args " ++ pyStr ((tj.getKey "arguments").getD Json.null)
            ++ ":\n" ++ errMsg))])
    ∧ strContains ("Tool call error for " ++ pyStr ((tj.getKey "tool_name").getD Json.null)
        ++ " with args " ++ pyStr ((tj.getKey "arguments").getD Json.null)
        ++ ":\n" ++ errMsg) (pyStr ((tj.getKey "tool_name").getD Json.null))
    ∧ strContains ("Tool call error for " ++ pyStr ((tj.getKey "tool_name").getD Json.null)
        ++ " with args " ++ pyStr ((tj.getKey "arguments").getD Json.null)
        ++ ":\n" ++ errMsg) (pyStr ((tj.getKey "arguments").getD Json.null))
    ∧ strContains ("Tool call error for " ++ pyStr ((tj.getKey "tool_name").getD Json.null)
        ++ " with args " ++ pyStr ((tj.getKey "arguments").getD Json.null)
        ++ ":\n" ++ errMsg) errMsg := by
  refine ⟨?_, ?_, ?_, ?_⟩
  · simp [handle_user_query, discover_tools, hinit, hdisc, hraw, hx, htr, hk1, hk2,
      herr, hfin]
  · refine ⟨"Tool call error for ".data, (" with args "
      ++ pyStr ((tj.getKey "arguments").getD Json.null) ++ ":\n" ++ errMsg).data, ?_⟩
    simp [String.data_append]
  · refine ⟨("Tool call error for " ++ pyStr ((tj.getKey "tool_name").getD Json.null)
      ++ " with args ").data, (":\n" ++ errMsg).data, ?_⟩
    simp [String.data_append]
  · refine ⟨("Tool call error for " ++ pyStr ((tj.getKey "tool_name").getD Json.null)
      ++ " with args " ++ pyStr ((tj.getKey "arguments").getD Json.null) ++ ":\n").data, [], ?_⟩
    simp [String.data_append]

/-- Witness for `handle_user_query_contains_tool_failure`: the tool
call `t{a:1}` fails with `boom`, yet a final answer is produced and the
history holds exactly the three new turns. -/
theorem handle_user_query_contains_tool_failure_witness :
    (handle_user_query envToolError "q" []).1 =
      .ok (json_dumps_indent2 toolCallObj,
        "Tool call error for " ++ pyStr ((toolCallObj.getKey "tool_name").getD Json.null)
          ++ " with args " ++ pyStr ((toolCallObj.getKey "arguments").getD Json.null)
          ++ ":\n" ++ "boom",
        "final",
        [("user", "q"), ("assistant", json_dumps_indent2 toolCallObj), ("assistant", "final")]) := by
  have h := (handle_user_query_contains_tool_failure envToolError "q" [] [] replyUnfenced
    toolCallObj "boom" "final" rfl rfl (by decide) (by decide) (by decide) (by decide)
    (by decide) rfl (by decide)).1
  rw [h]
  rfl

/-- C3 (counterexample): the reply `{"tool_name":"t","arguments":5}`
has a scalar `arguments`, yet the orchestrator treats the call as valid
and executes it (a `toolExec` event occurs and the result is not the
no-tool sentinel) — refuting the claimed object-ness check. -/
theorem scalar_arguments_still_executes :
    extract_tool_json replyScalarArgs = some scalarArgsObj
    ∧ scalarArgsObj.getKey "arguments" = some (Json.num 5)
    ∧ hasExec (handle_user_query envToolOk "q" []).2 = true
    ∧ (handle_user_query envToolOk "q" []).1 ≠
        .ok (replyScalarArgs, "(no tool called)", replyScalarArgs,
          [("user", "q"), ("assistant", replyScalarArgs)]) := by
  decide

/-- C3 (amended): a parsed reply takes the tool branch if and only if
the parsed object is truthy (non-empty) and has both keys `tool_name`
and `arguments`; the value of `arguments` is not checked for
object-ness. -/
theorem tool_branch_iff_truthy_and_keys (env : Env) (u : String) (hist : History)
    (tools : List Json) (raw : String) (tj : Json)
    (hinit : env.init = .ok ())
    (hdisc : env.searchTools "netconf" 50 = .ok tools)
    (hraw : chat_complete env (build_tool_call_messages (hist ++ [("user", u)])
              (tools_to_json_for_prompt tools)) = .ok raw)
    (hx : extract_tool_json raw = some tj) :
    hasExec (handle_user_query env u hist).2 =
      (pyTruthy tj && tj.hasKey "tool_name" && tj.hasKey "arguments") := by
  simp only [handle_user_query, discover_tools, hinit, hdisc, hraw, hx]
  generalize hb : (!pyTruthy tj || !Json.hasKey tj "tool_name" || !Json.hasKey tj "arguments") = b
  cases b with
  | true =>
      simp only [Bool.or_eq_true, Bool.not_eq_true'] at hb
      rw [if_pos rfl]
      rcases hb with (hc | hc) | hc <;> simp [hasExec, isExecEv, hc]
  | false =>
      simp only [Bool.or_eq_false_iff, Bool.not_eq_false'] at hb
      obtain ⟨⟨h1, h2⟩, h3⟩ := hb
      rw [if_neg (by simp : ¬ false = true)]
      split <;> simp [hasExec, isExecEv, h1, h2, h3]

/-- Witness for `tool_branch_iff_truthy_and_keys` at the
scalar-arguments reply. -/
theorem tool_branch_iff_truthy_and_keys_witness :
    hasExec (handle_user_query envToolOk "q" []).2 =
      (pyTruthy scalarArgsObj && scalarArgsObj.hasKey "tool_name"
        && scalarArgsObj.hasKey "arguments") :=
  tool_branch_iff_truthy_and_keys envToolOk "q" [] [] replyScalarArgs scalarArgsObj
    rfl rfl (by decide) (by decide)

/-- C8: every normal return performs at least one and at most two
completion calls: exactly two when the tool branch was taken and
exactly one otherwise. -/
theorem handle_user_query_completion_count (env : Env) (u : String) (hist : History)
    (out : String × String × String × History) (evs : List Event)
    (h : handle_user_query env u hist = (.ok out, evs)) :
    (1 ≤ countCompletions evs ∧ countCompletions evs ≤ 2)
    ∧ (hasExec evs = true → countCompletions evs = 2)
    ∧ (hasExec evs = false → countCompletions evs = 1) := by
  simp only [handle_user_query, discover_tools] at h
  repeat' split at h
  all_goals rw [Prod.mk.injEq] at h
  all_goals obtain ⟨h1, h2⟩ := h
  all_goals first
    | exact Except.noConfusion h1
    | (subst h2
       simp [countCompletions, hasExec, isCompletionEv, isExecEv])

/-- Witness for `handle_user_query_completion_count` on a run that
takes the tool branch. -/
theorem handle_user_query_completion_count_witness :
    (1 ≤ countCompletions (handle_user_query envToolError "q" []).2
      ∧ countCompletions (handle_user_query envToolError "q" []).2 ≤ 2)
    ∧ (hasExec (handle_user_query envToolError "q" []).2 = true →
        countCompletions (handle_user_query envToolError "q" []).2 = 2)
    ∧ (hasExec (handle_user_query envToolError "q" []).2 = false →
        countCompletions (handle_user_query envToolError "q" []).2 = 1) :=
  by
  refine handle_user_query_completion_count envToolError "q" []
    ((handle_user_query envToolError "q" []).1.toOption.getD ("", "", "", []))
    (handle_user_query envToolError "q" []).2 ?_
  decide

theorem readRef_append (st : Store) (x : History) (r : Nat) (h : r < st.length) :
    readRef (st ++ [x]) r = readRef st r := by
  simp [readRef, List.getElem?_append_left h]

theorem readRef_write_ne (st : Store) (i : Nat) (x : History) (r : Nat) (h : r ≠ i) :
    readRef (writeRef st i x) r = readRef st r := by
  simp [readRef, writeRef, List.getElem?_set_ne (Ne.symm h)]

/-- C7: the caller's history list is never mutated: every append goes
to the fresh copy allocated at entry, so in every branch — normal
return or fatal failure — the store slot holding the caller's list is
unchanged. -/
theorem handle_user_query_preserves_caller_history (env : Env) (u : String)
    (st : Store) (r : Nat) (h : r < st.length) :
    readRef (handle_user_query_heap env u st r).2 r = readRef st r := by
  have hne : r ≠ st.length := Nat.ne_of_lt h
  simp only [handle_user_query_heap, allocRef]
  repeat' split
  all_goals simp [readRef_write_ne _ _ _ _ hne, readRef_append _ _ _ h]

/-- Witness for `handle_user_query_preserves_caller_history`: a
tool-branch run leaves the caller's one-turn history untouched. -/
theorem handle_user_query_preserves_caller_history_witness :
    readRef (handle_user_query_heap envToolError "q" [[("user", "old")]] 0).2 0
      = readRef [[("user", "old")]] 0 :=
  handle_user_query_preserves_caller_history envToolError "q" [[("user", "old")]] 0
    (by decide)

/-- C10: `chat_complete` maps a null completion content to `""`; the
empty string contains no fenced block and no brace span, so extraction
yields no call; hence a null-content phase-1 reply deterministically
takes the no-tool path instead of raising. -/
theorem null_content_takes_no_tool_path :
    (∀ (env : Env) (msgs : List Msg), env.completeRaw msgs = .ok none →
       chat_complete env msgs = .ok "")
    ∧ extract_tool_json "" = none
    ∧ ∀ (env : Env) (u : String) (hist : History) (tools : List Json),
        env.init = .ok () →
        env.searchTools "netconf" 50 = .ok tools →
        env.completeRaw (build_tool_call_messages (hist ++ [("user", u)])
          (tools_to_json_for_prompt tools)) = .ok none →
        (handle_user_query env u hist).1 =
          .ok ("", "(no tool called)", "", hist ++ [("user", u), ("assistant", "")]) := by
  refine ⟨?_, by decide, ?_⟩
  · intro env msgs hmsg
    simp [chat_complete, hmsg]
  · intro env u hist tools hinit hdisc hnull
    have hcc : chat_complete env (build_tool_call_messages (hist ++ [("user", u)])
        (tools_to_json_for_prompt tools)) = .ok "" := by
      simp [chat_complete, hnull]
    have hx : extract_tool_json "" = none := by decide
    simp [handle_user_query, discover_tools, hinit, hdisc, hcc, hx]

/-- Witness for `null_content_takes_no_tool_path` in an environment
whose completion content is null. -/
theorem null_content_takes_no_tool_path_witness :
    (handle_user_query envNullContent "q" []).1 =
      .ok ("", "(no tool called)", "", [("user", "q"), ("assistant", "")]) :=
  null_content_takes_no_tool_path.2.2 envNullContent "q" [] [] rfl rfl rfl
